import Mathlib

/-!
# Verification of the multi-agent-workshop concurrency core

Shallow embedding of the concurrency substrate of the repository:

* `MessageChannel` — the bounded FIFO channel of
  `crates/multi-agent-sync/src/message/{channel,receiver}.rs` and
  `crates/multi-agent-system-sync/src/message/sender.rs`, modelled as a
  queue of at most `capacity` elements plus a connectivity flag
  (crossbeam `try_send` fails with `Disconnected` once all receivers are
  dropped, with `Full` when the bounded buffer is at capacity).
* `Shared` — the RCU cell of `crates/multi-agent-sync/src/shared.rs`,
  modelled by an interleaving trace semantics: every `store`/`load` is one
  atomic step, a guard captures the value current at its `load`.
* `MultiAgentRuntimeManager::run` of
  `crates/multi-agent-runtime/src/manager.rs` — the worker loop, the
  tick-pacing arithmetic, and the shutdown/join protocol after the GUI
  (consumer) loop exits.
-/

namespace MultiAgentProof

/-! ## Message channel

`MessageChannel::new(capacity)` builds a crossbeam bounded channel; the
sender half exposes `send` (non-blocking `try_send`) and `send_lossy`
(`let _ = self.send(message)`), the receiver half `drain`
(`try_iter().collect()`), `drain_limit` (`try_iter().take(limit)`) and
`try_recv`. The channel state is the FIFO queue content, the fixed
capacity, and whether the receiving side is still connected. -/

structure MessageChannel (T : Type) where
  queue : List T
  capacity : Nat
  connected : Bool
  deriving Repr, DecidableEq

/-- The two failures of `MessageSender::send`
(`Error::MessageSenderFull`, `Error::MessageSenderDisconnected`). -/
inductive SendError where
  | full
  | disconnected
  deriving Repr, DecidableEq

namespace MessageChannel

/-- `MessageChannel::new(capacity)`: empty bounded queue, both halves live. -/
def new (T : Type) (capacity : Nat) : MessageChannel T :=
  { queue := [], capacity := capacity, connected := true }

/-- `MessageSender::send`: crossbeam `try_send`, which fails with
`Disconnected` when every receiver has been dropped, with `Full` when the
bounded buffer holds `capacity` messages, and otherwise enqueues at the
back of the FIFO queue. -/
def send {T : Type} (c : MessageChannel T) (message : T) :
    MessageChannel T × Except SendError Unit :=
  if c.connected then
    if c.queue.length < c.capacity then
      ({ c with queue := c.queue ++ [message] }, Except.ok ())
    else
      (c, Except.error SendError.full)
  else
    (c, Except.error SendError.disconnected)

/-- `MessageSender::send_lossy`: `let _ = self.send(message);` — the
result of `send` is discarded, only its state effect remains; the
operation itself has no error channel at all. -/
def send_lossy {T : Type} (c : MessageChannel T) (message : T) :
    MessageChannel T :=
  (c.send message).1

/-- `MessageReceiver::drain`: `self.inner.try_iter().collect()` — removes
and returns every queued message, in FIFO order. -/
def drain {T : Type} (c : MessageChannel T) :
    List T × MessageChannel T :=
  (c.queue, { c with queue := [] })

/-- `MessageReceiver::drain_limit`:
`self.inner.try_iter().take(limit).collect()` — removes and returns at
most the first `limit` queued messages, leaving the remainder queued. -/
def drain_limit {T : Type} (c : MessageChannel T) (limit : Nat) :
    List T × MessageChannel T :=
  (c.queue.take limit, { c with queue := c.queue.drop limit })

/-- `MessageReceiver::try_recv`: removes and returns the front message,
if any. -/
def try_recv {T : Type} (c : MessageChannel T) :
    Option T × MessageChannel T :=
  match c.queue with
  | [] => (none, c)
  | m :: rest => (some m, { c with queue := rest })

/-- A sequence of `send` calls with no intervening drain, returning the
final channel state and the result of each call in order. -/
def sendAll {T : Type} (c : MessageChannel T) :
    List T → MessageChannel T × List (Except SendError Unit)
  | [] => (c, [])
  | m :: rest =>
    let step := c.send m
    let tail := step.1.sendAll rest
    (tail.1, step.2 :: tail.2)

end MessageChannel

/-! ## Shared RCU cell

`Shared<T>` (shared.rs) wraps `Arc<ArcSwap<T>>`. `load` returns a guard
that keeps the `Arc` pointer it captured alive; `store` swaps in
`Arc::new(data)` and never mutates the old pointee. We model a
sequentially-consistent interleaving of the atomic pointer operations: a
trace of `store`/`load` steps, executed against the current snapshot.
Each `load` records the snapshot current at that step — the value the
guard dereferences to for its whole lifetime, by construction never
rewritten by a later step, exactly as the old `Arc` pointee is never
mutated in place. -/

/-- One atomic step on a `Shared` cell: `Shared::store(v)` or a
`Shared::load()` whose guard we observe. -/
inductive SharedOp (T : Type) where
  | store (v : T)
  | load
  deriving Repr, DecidableEq

/-- Execute a trace of atomic `Shared` operations from the current
snapshot; returns the final snapshot and the guard value captured by each
`load`, in trace order. -/
def execOps {T : Type} : T → List (SharedOp T) → T × List T
  | cur, [] => (cur, [])
  | _, SharedOp.store v :: rest => execOps v rest
  | cur, SharedOp.load :: rest =>
    ((execOps cur rest).1, cur :: (execOps cur rest).2)

/-- `Shared::update` as `arc_swap::rcu`: each attempt computes
`f` of the snapshot it loaded and CASes it in; an attempt that finds that
another writer installed a conflicting value retries against that latest
value. `interference` lists, per failed CAS, the conflicting value the
attempt found; when it is exhausted the CAS succeeds. -/
def rcuLoop {T : Type} (f : T → T) : T → List T → T
  | cur, [] => f cur
  | _, v :: rest => rcuLoop f v rest

/-- The linearized effect of one whole `Shared::update(f)` call: the rcu
loop retries until its CAS succeeds, so the call takes effect as one
atomic application of clone-then-`f` to the then-current snapshot. -/
def updateOp {T : Type} (f : T → T) (cur : T) : T := f cur

/-- `T` threads, identified by `Fin tc`, each call
`shared.update(|data| data.counter += 1)` some number of times; a
schedule lists the linearization order of all the update calls. This runs
the schedule against a counter starting at `init`. -/
def runUpdates (tc : Nat) (sched : List (Fin tc)) (init : Nat) : Nat :=
  sched.foldl (fun acc _ => updateOp (fun n => n + 1) acc) init

/-! ## Runtime manager (`MultiAgentRuntimeManager::run`, manager.rs)

`run` spawns the worker thread, runs the GUI on the calling thread, and
then (only when `gui.run()` returned `Ok`, because the result goes
through `?`) sets the stop flag and polls `is_finished` every 10 ms for
at most 5 s before joining or reporting `ShutdownTimeout`. -/

/-- The variants of `multi_agent_core::Error` reachable from `run`. -/
inductive Error where
  | simulationPanic (payload : String)
  | shutdownTimeout (timeoutMs : Nat)
  | gui (message : String)
  deriving Repr, DecidableEq

/-- What one call of the worker loop body (`simulation.update` plus the
`?` propagation around it) does: return normally, return an error, or
unwind with a panic payload. -/
inductive StepOutcome where
  | ok
  | err (e : Error)
  | panicked (payload : String)
  deriving Repr, DecidableEq

instance {ε α : Type} [DecidableEq ε] [DecidableEq α] :
    DecidableEq (Except ε α) := fun x y =>
  match x, y with
  | Except.ok a, Except.ok b =>
    if h : a = b then isTrue (by rw [h])
    else isFalse (by intro hh; cases hh; exact h rfl)
  | Except.ok _, Except.error _ => isFalse (by intro hh; cases hh)
  | Except.error _, Except.ok _ => isFalse (by intro hh; cases hh)
  | Except.error e, Except.error f =>
    if h : e = f then isTrue (by rw [h])
    else isFalse (by intro hh; cases hh; exact h rfl)

/-- How the worker thread terminates, as seen by `join()`: an unwind with
a payload, or normal completion with the closure's `Result<()>`. -/
inductive WorkerOutcome where
  | panicked (payload : String)
  | completed (r : Except Error Unit)
  deriving Repr, DecidableEq

/-- The worker loop of the spawned thread, fed the outcome of each
successive tick until the stop flag is observed (end of the list): an
`Err` from `simulation.update` leaves the loop through `?` as the
closure's return value; a panic unwinds uncaught — nothing inside the
loop converts it. -/
def workerRun : List StepOutcome → WorkerOutcome
  | [] => WorkerOutcome.completed (Except.ok ())
  | StepOutcome.ok :: rest => workerRun rest
  | StepOutcome.err e :: _ => WorkerOutcome.completed (Except.error e)
  | StepOutcome.panicked p :: _ => WorkerOutcome.panicked p

/-- `simulation_thread.join().map_err(|e| Error::SimulationPanic(format!("{:?}", e)))?`:
the only place a worker panic is caught and converted; the payload's
debug formatting is modelled as the payload string itself. -/
def joinWorker : WorkerOutcome → Except Error Unit
  | WorkerOutcome.panicked p => Except.error (Error.simulationPanic p)
  | WorkerOutcome.completed r => r

/-- `let timeout = Duration::from_secs(5);` in milliseconds. -/
def shutdownTimeoutMs : Nat := 5000

/-- `thread::sleep(Duration::from_millis(10));` between polls. -/
def pollIntervalMs : Nat := 10

/-- The outcome of the post-GUI wait loop. -/
inductive WaitOutcome where
  | joined
  | timedOut
  deriving Repr, DecidableEq

/-- The wait loop after the stop flag is set: at elapsed time `elapsed`
(ms) it first checks `simulation_thread.is_finished()`, then whether
`start.elapsed() >= timeout`, and otherwise sleeps 10 ms and repeats.
`fuel` bounds the recursion; from `elapsed = 0` the loop always exits by
`elapsed = 5000`, i.e. within 501 iterations, so any `fuel ≥ 501` is
above every reachable depth. -/
def waitLoop (finished : Nat → Bool) : Nat → Nat → WaitOutcome
  | _, 0 => WaitOutcome.timedOut
  | elapsed, fuel + 1 =>
    if finished elapsed then WaitOutcome.joined
    else if shutdownTimeoutMs ≤ elapsed then WaitOutcome.timedOut
    else waitLoop finished (elapsed + pollIntervalMs) fuel

/-- Ample fuel for `waitLoop` from `elapsed = 0` (501 iterations reach
the timeout check at 5000 ms). -/
def waitFuel : Nat := 502

/-- The observable outcome of `run` from the point the GUI loop exits:
whether the shared stop flag was stored `true`, whether the worker thread
was forcibly terminated (no code path does this — the loop only polls and
sleeps), and `run`'s return value. -/
structure RunTrace where
  stopFlagSet : Bool
  forcedKill : Bool
  result : Except Error Unit
  deriving Repr, DecidableEq

/-- `run` from `gui.run()?` onwards. On `Err` the `?` operator returns
the GUI error at once — before `stop_gui.store(true, ..)`. On `Ok` the
stop flag is set and the wait loop either joins the worker (propagating
`joinWorker` of its outcome) or reports `ShutdownTimeout`.
`finished e` tells whether `simulation_thread.is_finished()` holds `e` ms
after the flag was set; `worker` is the thread's terminal outcome. -/
def runModel (guiResult : Except String Unit) (finished : Nat → Bool)
    (worker : WorkerOutcome) : RunTrace :=
  match guiResult with
  | Except.error e =>
    { stopFlagSet := false, forcedKill := false,
      result := Except.error (Error.gui e) }
  | Except.ok _ =>
    match waitLoop finished 0 waitFuel with
    | WaitOutcome.joined =>
      { stopFlagSet := true, forcedKill := false, result := joinWorker worker }
    | WaitOutcome.timedOut =>
      { stopFlagSet := true, forcedKill := false,
        result := Except.error (Error.shutdownTimeout shutdownTimeoutMs) }

/-- The pacing at the end of each worker tick:
`if duration < frequency { thread::sleep(frequency - duration) }` — the
sleep in ms given the target period and the time this tick took. -/
def tickSleep (frequency duration : Nat) : Nat :=
  if duration < frequency then frequency - duration else 0

/-- `Duration::from_millis(1000 / Simulation::FREQUENCY_IN_HZ)` — the
target period in ms; `none` models the divide-by-zero panic Rust raises
when `FREQUENCY_IN_HZ = 0`. -/
def periodMillis (freqInHz : Nat) : Option Nat :=
  if freqInHz = 0 then none else some (1000 / freqInHz)

/-! ## Helper lemmas -/

theorem execOps_append {T : Type} (init : T) (l1 l2 : List (SharedOp T)) :
    execOps init (l1 ++ l2)
      = ((execOps (execOps init l1).1 l2).1,
         (execOps init l1).2 ++ (execOps (execOps init l1).1 l2).2) := by
  induction l1 generalizing init with
  | nil => simp [execOps]
  | cons op rest ih => cases op <;> simp [execOps, ih]

theorem execOps_fst_no_store {T : Type} (v : T) (l : List (SharedOp T))
    (h : ∀ w, SharedOp.store w ∉ l) : (execOps v l).1 = v := by
  induction l with
  | nil => rfl
  | cons op rest ih =>
    cases op with
    | store w => exact absurd (List.mem_cons_self _ _) (h w)
    | load =>
      simp only [execOps]
      exact ih fun w hw => h w (List.mem_cons_of_mem _ hw)

theorem sendAll_spec {T : Type} :
    ∀ (msgs : List T) (q : List T) (cap : Nat), q.length ≤ cap →
      MessageChannel.sendAll ⟨q, cap, true⟩ msgs
        = (⟨q ++ msgs.take (cap - q.length), cap, true⟩,
           List.replicate (min msgs.length (cap - q.length)) (Except.ok ())
             ++ List.replicate (msgs.length - (cap - q.length))
                 (Except.error SendError.full)) := by
  intro msgs
  induction msgs with
  | nil => intro q cap _; simp [MessageChannel.sendAll]
  | cons m rest ih =>
    intro q cap hq
    by_cases h : q.length < cap
    · obtain ⟨k, hk⟩ : ∃ k, cap - q.length = k + 1 :=
        ⟨cap - q.length - 1, by omega⟩
      have hstep : MessageChannel.send ⟨q, cap, true⟩ m
          = (⟨q ++ [m], cap, true⟩, Except.ok ()) := by
        simp [MessageChannel.send, h]
      have hlen : (q ++ [m]).length ≤ cap := by
        simp [List.length_append]; omega
      have hrec := ih (q ++ [m]) cap hlen
      have hk' : cap - (q ++ [m]).length = k := by
        simp [List.length_append]; omega
      simp only [MessageChannel.sendAll, hstep, hrec, hk', hk, Prod.mk.injEq]
      constructor
      · simp [MessageChannel.mk.injEq, List.take_succ_cons, List.append_assoc]
      · simp [Nat.succ_min_succ, Nat.succ_sub_succ, List.replicate_succ]
    · have heq : q.length = cap := by omega
      have hzero : cap - q.length = 0 := by omega
      have hstep : MessageChannel.send ⟨q, cap, true⟩ m
          = (⟨q, cap, true⟩, Except.error SendError.full) := by
        simp [MessageChannel.send, h]
      have hrec := ih q cap hq
      simp only [MessageChannel.sendAll, hstep, hrec, hzero]
      simp [List.replicate_succ]

/-! ## Claim theorems -/

/-- C1 (amended): for a channel of capacity `cap` and any `n` sends with
no intervening drain, the first `min(n, cap)` sends succeed, every later
send returns `Full`, `drain` returns exactly the accepted values in send
order, and — when `cap ≥ 1` — after the drain a previously rejected value
can be sent successfully. -/
theorem channel_bounded_send_drain {T : Type} (cap : Nat) (msgs : List T) :
    ((MessageChannel.new T cap).sendAll msgs).2
        = List.replicate (min msgs.length cap) (Except.ok ())
          ++ List.replicate (msgs.length - cap) (Except.error SendError.full)
    ∧ (((MessageChannel.new T cap).sendAll msgs).1.drain).1 = msgs.take cap
    ∧ (0 < cap → ∀ v : T,
        ((((MessageChannel.new T cap).sendAll msgs).1.drain).2.send v).2
          = Except.ok ()) := by
  have hspec := sendAll_spec msgs [] cap (by simp)
  have hnew : MessageChannel.new T cap = ⟨[], cap, true⟩ := rfl
  refine ⟨?_, ?_, ?_⟩
  · rw [hnew, hspec]; simp
  · rw [hnew, hspec]; simp [MessageChannel.drain]
  · intro hcap v
    rw [hnew, hspec]
    simp [MessageChannel.drain, MessageChannel.send, hcap]

/-- C1 witness: capacity 2, sends `[1, 2, 3]` — `send(1)` and `send(2)`
succeed, `send(3)` is `Full`, `drain()` yields `[1, 2]`, and a send after
the drain succeeds. -/
theorem channel_bounded_send_drain_witness :
    ((MessageChannel.new Nat 2).sendAll [1, 2, 3]).2
        = List.replicate (min 3 2) (Except.ok ())
          ++ List.replicate (3 - 2) (Except.error SendError.full)
    ∧ (((MessageChannel.new Nat 2).sendAll [1, 2, 3]).1.drain).1
        = [1, 2, 3].take 2
    ∧ ((((MessageChannel.new Nat 2).sendAll [1, 2, 3]).1.drain).2.send 3).2
        = Except.ok () := by
  have h := channel_bounded_send_drain 2 [1, 2, 3]
  exact ⟨h.1, h.2.1, h.2.2 (by decide) 3⟩

/-- C1 counterexample: a channel of capacity `0` rejects every send, so
after `send(1)` is rejected and a `drain()` runs, sending `1` again still
returns `Full` — the claim's final conjunct fails at capacity 0. -/
theorem channel_capacity_zero_rejected_forever :
    ((MessageChannel.new Nat 0).sendAll [1]).2 = [Except.error SendError.full]
    ∧ ((((MessageChannel.new Nat 0).sendAll [1]).1.drain).2.send 1).2
        = Except.error SendError.full
    ∧ ¬ ((((MessageChannel.new Nat 0).sendAll [1]).1.drain).2.send 1).2
        = Except.ok () := by
  refine ⟨rfl, rfl, ?_⟩
  intro h
  exact Except.noConfusion h

/-- C8: `send_lossy` has no error channel at all (its result type carries
none); on a full or disconnected channel it leaves the state unchanged,
so a subsequent `drain` shows exactly the messages that were already
queued and no trace of the discarded one; on a connected, non-full
channel it enqueues exactly as `send` does. -/
theorem channel_send_lossy_spec {T : Type} (c : MessageChannel T) (v : T) :
    (c.connected = false ∨ c.capacity ≤ c.queue.length →
      c.send_lossy v = c ∧ ((c.send_lossy v).drain).1 = c.queue)
    ∧ (c.connected = true → c.queue.length < c.capacity →
      c.send_lossy v = (c.send v).1 ∧ (c.send v).2 = Except.ok ()
        ∧ (c.send_lossy v).queue = c.queue ++ [v]) := by
  constructor
  · intro h
    have hstate : c.send_lossy v = c := by
      rcases h with hdis | hfull
      · simp [MessageChannel.send_lossy, MessageChannel.send, hdis]
      · by_cases hconn : c.connected <;>
          simp [MessageChannel.send_lossy, MessageChannel.send, hconn,
            Nat.not_lt.mpr hfull]
    exact ⟨hstate, by rw [hstate, MessageChannel.drain]⟩
  · intro hconn hroom
    refine ⟨rfl, ?_, ?_⟩
    · simp [MessageChannel.send, hconn, hroom]
    · simp [MessageChannel.send_lossy, MessageChannel.send, hconn, hroom]

/-- C8 witness: on the full capacity-2 channel holding `[5, 6]`,
`send_lossy 7` leaves the state unchanged and `drain` yields `[5, 6]`. -/
theorem channel_send_lossy_witness :
    MessageChannel.send_lossy ⟨[5, 6], 2, true⟩ (7 : Nat) = ⟨[5, 6], 2, true⟩
    ∧ ((MessageChannel.send_lossy ⟨[5, 6], 2, true⟩ (7 : Nat)).drain).1
        = [5, 6] :=
  (channel_send_lossy_spec ⟨[5, 6], 2, true⟩ 7).1 (Or.inr (by decide))

/-- C9: `drain_limit n` removes and returns exactly the first `n` queued
items (so at most `n` of them) in FIFO order and leaves the remainder
queued; the following `drain` returns that remainder, so the two calls
partition the queued items with no loss or duplication, preserving
order. -/
theorem channel_drain_limit_partition {T : Type} (c : MessageChannel T)
    (n : Nat) :
    (c.drain_limit n).1 = c.queue.take n
    ∧ (c.drain_limit n).1.length ≤ n
    ∧ ((c.drain_limit n).2.drain).1 = c.queue.drop n
    ∧ (c.drain_limit n).1 ++ ((c.drain_limit n).2.drain).1 = c.queue
    ∧ (((c.drain_limit n).2.drain).2).queue = [] := by
  refine ⟨rfl, ?_, rfl, ?_, rfl⟩
  · simp [MessageChannel.drain_limit]
  · exact List.take_append_drop n c.queue

/-- C2: in any interleaved trace on a `Shared` cell, after `store v` the
snapshot stays `v` through every following step that is not a store — so
every such subsequent `load` dereferences to `v`; the guard such a load
captures appears as the literal value `v` in the guard list, unchanged by
whatever trace follows (first and second conjuncts); and a guard obtained
from a load that happened before a store captures the value current at
its load, for any continuation of the trace whatsoever (third
conjunct). -/
theorem shared_store_visibility_guard {T : Type} (init v : T)
    (pre mid post rest : List (SharedOp T))
    (hmid : ∀ w, SharedOp.store w ∉ mid) :
    (execOps init
        (pre ++ SharedOp.store v :: (mid ++ SharedOp.load :: post))).2
      = (execOps init (pre ++ SharedOp.store v :: mid)).2
          ++ v :: (execOps v post).2
    ∧ (execOps init (pre ++ SharedOp.store v :: mid)).1 = v
    ∧ (execOps init (pre ++ SharedOp.load :: rest)).2
      = (execOps init pre).2
          ++ (execOps init pre).1
            :: (execOps (execOps init pre).1 rest).2 := by
  have hstore : ∀ (c : T) (l : List (SharedOp T)),
      execOps c (SharedOp.store v :: l) = execOps v l := fun _ _ => rfl
  have hload : ∀ (c : T) (l : List (SharedOp T)),
      execOps c (SharedOp.load :: l)
        = ((execOps c l).1, c :: (execOps c l).2) := fun _ _ => rfl
  refine ⟨?_, ?_, ?_⟩
  · rw [execOps_append init pre, execOps_append init pre, hstore, hstore,
      execOps_append v mid, hload, execOps_fst_no_store v mid hmid]
    simp
  · rw [execOps_append init pre, hstore, execOps_fst_no_store v mid hmid]
  · rw [execOps_append init pre, hload]

/-- C2 witness: trace `store 1; load; store 2` from initial value `0` —
the load's guard is `1` even though `store 2` follows it, and the guard
of a load placed before a store captures the value current at the
load. -/
theorem shared_store_visibility_guard_witness :
    (execOps 0
        ([] ++ SharedOp.store 1 :: ([] ++ SharedOp.load :: [SharedOp.store 2]))).2
      = (execOps 0 ([] ++ SharedOp.store 1 :: ([] : List (SharedOp Nat)))).2
          ++ 1 :: (execOps 1 [SharedOp.store 2]).2
    ∧ (execOps 0 ([] ++ SharedOp.store 1 :: ([] : List (SharedOp Nat)))).1 = 1
    ∧ (execOps 0 ([] ++ SharedOp.load :: [SharedOp.store (5 : Nat)])).2
      = (execOps 0 ([] : List (SharedOp Nat))).2
          ++ (execOps 0 ([] : List (SharedOp Nat))).1
            :: (execOps (execOps 0 ([] : List (SharedOp Nat))).1
                  [SharedOp.store 5]).2 :=
  shared_store_visibility_guard 0 1 [] [] [SharedOp.store 2]
    [SharedOp.store 5] (fun _ hw => List.not_mem_nil _ hw)

/-- C3: each `Shared::update` call linearizes to one atomic application
of its closure — the rcu loop retries on every conflicting installation,
re-running `f` against the latest value, so the loop's result is `f` of
the last value it observed (second conjunct); consequently any
linearization of `tc` threads' update calls that increment a counter,
`n` calls each, leaves the counter at exactly `tc * n` (first
conjunct). -/
theorem sum_count_univ {tc : Nat} (l : List (Fin tc)) :
    (∑ t : Fin tc, l.count t) = l.length := by
  induction l with
  | nil => simp
  | cons a l ih =>
    simp only [List.count_cons, List.length_cons]
    rw [Finset.sum_add_distrib, ih]
    have hone : (∑ x : Fin tc, if (a == x) = true then 1 else 0) = 1 := by
      simp [beq_iff_eq, Finset.sum_ite_eq]
    rw [hone]

theorem shared_update_rcu_counter (tc n : Nat) (sched : List (Fin tc))
    (hcount : ∀ t : Fin tc, sched.count t = n) :
    runUpdates tc sched 0 = tc * n
    ∧ ∀ (f : Nat → Nat) (cur : Nat) (interference : List Nat),
        rcuLoop f cur interference = f (interference.getLastD cur) := by
  constructor
  · have hlen : ∀ (l : List (Fin tc)) (init : Nat),
        runUpdates tc l init = init + l.length := by
      intro l
      induction l with
      | nil => intro init; simp [runUpdates]
      | cons a l ih =>
        intro init
        have := ih (init + 1)
        simp only [runUpdates, List.foldl_cons, updateOp] at this ⊢
        rw [this]
        simp [Nat.add_assoc, Nat.add_comm 1 l.length]
    rw [hlen, Nat.zero_add, ← sum_count_univ sched]
    simp [hcount, Finset.sum_const, Finset.card_univ, Nat.mul_comm]
  · intro f cur interference
    induction interference generalizing cur with
    | nil => rfl
    | cons w rest ih =>
      show rcuLoop f w rest = f ((w :: rest).getLastD cur)
      rw [ih w, List.getLastD_cons]

/-- C3 witness: two threads, two increments each, under the
linearization `0, 1, 1, 0`, leave the counter at `2 * 2 = 4`. -/
theorem shared_update_rcu_counter_witness :
    runUpdates 2 [0, 1, 1, 0] 0 = 2 * 2 :=
  (shared_update_rcu_counter 2 2 [0, 1, 1, 0] (by decide)).1

theorem waitLoop_joined (finished : Nat → Bool)
    (h5000 : finished shutdownTimeoutMs = true) :
    ∀ (fuel elapsed : Nat), elapsed ≤ shutdownTimeoutMs →
      elapsed % 10 = 0 →
      shutdownTimeoutMs < elapsed + pollIntervalMs * fuel →
      waitLoop finished elapsed fuel = WaitOutcome.joined := by
  intro fuel
  induction fuel with
  | zero =>
    intro elapsed h1 _ h3
    exfalso
    simp only [shutdownTimeoutMs, pollIntervalMs] at h1 h3
    omega
  | succ k ih =>
    intro elapsed h1 h2 h3
    by_cases hf : finished elapsed
    · simp [waitLoop, hf]
    · have hne : elapsed ≠ shutdownTimeoutMs := fun he =>
        hf (he ▸ h5000)
      have hlt : ¬ shutdownTimeoutMs ≤ elapsed :=
        Nat.not_le.mpr (Nat.lt_of_le_of_ne h1 hne)
      simp only [waitLoop, hf, hlt, if_false, Bool.false_eq_true]
      apply ih
      · simp only [shutdownTimeoutMs, pollIntervalMs] at *; omega
      · simp only [pollIntervalMs]; omega
      · simp only [shutdownTimeoutMs, pollIntervalMs] at *; omega

theorem waitLoop_timeout (finished : Nat → Bool)
    (hnever : ∀ e, e ≤ shutdownTimeoutMs → finished e = false) :
    ∀ (fuel elapsed : Nat), elapsed ≤ shutdownTimeoutMs →
      elapsed % 10 = 0 →
      waitLoop finished elapsed fuel = WaitOutcome.timedOut := by
  intro fuel
  induction fuel with
  | zero => intro elapsed _ _; rfl
  | succ k ih =>
    intro elapsed h1 h2
    have hf : finished elapsed = false := hnever elapsed h1
    by_cases hto : shutdownTimeoutMs ≤ elapsed
    · simp [waitLoop, hf, hto]
    · simp only [waitLoop, hf, hto, if_false, Bool.false_eq_true]
      apply ih
      · simp only [shutdownTimeoutMs, pollIntervalMs] at *; omega
      · simp only [pollIntervalMs]; omega

/-- C4 counterexample: when the GUI (consumer) loop exits with an error,
`gui.run()?` propagates it at once — before `stop_gui.store(true, ..)` —
so `run` returns the GUI error with the stop flag still unset and the
worker neither polled nor joined, refuting the claim's "whether it
returns success or an error". -/
theorem run_gui_error_skips_shutdown :
    (runModel (Except.error "gui failure") (fun _ => true)
        (WorkerOutcome.completed (Except.ok ()))).stopFlagSet = false
    ∧ (runModel (Except.error "gui failure") (fun _ => true)
        (WorkerOutcome.completed (Except.ok ()))).result
      = Except.error (Error.gui "gui failure") :=
  ⟨rfl, rfl⟩

/-- C4 (amended): whenever the consumer (GUI) loop exits successfully,
the shared stop flag is set, the worker's completion is polled, and on
completion (here: `is_finished` holds at some poll time within the
budget, and stays true) the worker is joined and its result — the join
conversion of its outcome — is propagated as `run`'s return value; when
the consumer loop exits with an error, `run` returns that error
immediately without setting the stop flag. -/
theorem run_success_sets_flag_joins (finished : Nat → Bool)
    (worker : WorkerOutcome)
    (hmono : ∀ a b, a ≤ b → finished a = true → finished b = true)
    (hfin : ∃ e, e ≤ shutdownTimeoutMs ∧ finished e = true) :
    (runModel (Except.ok ()) finished worker).stopFlagSet = true
    ∧ (runModel (Except.ok ()) finished worker).result = joinWorker worker
    ∧ ∀ guiErr,
        (runModel (Except.error guiErr) finished worker).stopFlagSet
          = false := by
  have h5000 : finished shutdownTimeoutMs = true := by
    obtain ⟨e, he, hfe⟩ := hfin
    exact hmono e shutdownTimeoutMs he hfe
  have hw : waitLoop finished 0 waitFuel = WaitOutcome.joined := by
    apply waitLoop_joined finished h5000
    · exact Nat.zero_le _
    · rfl
    · simp [shutdownTimeoutMs, pollIntervalMs, waitFuel]
  refine ⟨?_, ?_, fun _ => rfl⟩
  · simp [runModel, hw]
  · simp [runModel, hw]

/-- C4 witness: a worker already finished at the first poll, with the GUI
loop exiting successfully — the flag is set and the worker's own result
is propagated. -/
theorem run_success_sets_flag_joins_witness :
    (runModel (Except.ok ()) (fun _ => true)
        (WorkerOutcome.completed (Except.ok ()))).stopFlagSet = true
    ∧ (runModel (Except.ok ()) (fun _ => true)
        (WorkerOutcome.completed (Except.ok ()))).result
      = joinWorker (WorkerOutcome.completed (Except.ok ()))
    ∧ ∀ guiErr,
        (runModel (Except.error guiErr) (fun _ => true)
            (WorkerOutcome.completed (Except.ok ()))).stopFlagSet
          = false :=
  run_success_sets_flag_joins (fun _ => true)
    (WorkerOutcome.completed (Except.ok ()))
    (fun _ _ _ h => h) ⟨0, Nat.zero_le _, rfl⟩

/-- C5: if the worker is not finished at any poll within the 5-second
budget after the stop flag is set, `run` returns `ShutdownTimeout`, and
no code path forcibly terminates the worker thread (the wait loop only
polls and sleeps). -/
theorem run_shutdown_timeout (finished : Nat → Bool)
    (worker : WorkerOutcome)
    (hnever : ∀ e, e ≤ shutdownTimeoutMs → finished e = false) :
    (runModel (Except.ok ()) finished worker).result
      = Except.error (Error.shutdownTimeout shutdownTimeoutMs)
    ∧ (runModel (Except.ok ()) finished worker).forcedKill = false
    ∧ (runModel (Except.ok ()) finished worker).stopFlagSet = true := by
  have hw : waitLoop finished 0 waitFuel = WaitOutcome.timedOut :=
    waitLoop_timeout finished hnever waitFuel 0 (Nat.zero_le _) rfl
  refine ⟨?_, ?_, ?_⟩ <;> simp [runModel, hw]

/-- C5 witness: a worker that never reports finished — `run` ends with
`ShutdownTimeout` after the 5000 ms budget, without killing the
thread. -/
theorem run_shutdown_timeout_witness :
    (runModel (Except.ok ()) (fun _ => false)
        (WorkerOutcome.completed (Except.ok ()))).result
      = Except.error (Error.shutdownTimeout shutdownTimeoutMs)
    ∧ (runModel (Except.ok ()) (fun _ => false)
        (WorkerOutcome.completed (Except.ok ()))).forcedKill = false
    ∧ (runModel (Except.ok ()) (fun _ => false)
        (WorkerOutcome.completed (Except.ok ()))).stopFlagSet = true :=
  run_shutdown_timeout (fun _ => false)
    (WorkerOutcome.completed (Except.ok ())) (fun _ _ => rfl)

theorem workerRun_ok_ticks :
    ∀ (pre rest : List StepOutcome), (∀ s ∈ pre, s = StepOutcome.ok) →
      workerRun (pre ++ rest) = workerRun rest := by
  intro pre
  induction pre with
  | nil => intro rest _; rfl
  | cons s pre ih =>
    intro rest h
    have hs : s = StepOutcome.ok := h s (List.mem_cons_self _ _)
    subst hs
    exact ih rest fun t ht => h t (List.mem_cons_of_mem _ ht)

/-- C6: a worker tick that panics makes the loop terminate by unwinding —
nothing inside the loop catches it, the loop's own outcome is the raw
panic — and the conversion to `SimulationPanic`, carrying a description
derived from the payload, happens exactly at the join point, so `run`
returns that typed error rather than propagating the raw panic. -/
theorem run_simulation_panic (pre rest : List StepOutcome)
    (payload : String) (hpre : ∀ s ∈ pre, s = StepOutcome.ok) :
    workerRun (pre ++ StepOutcome.panicked payload :: rest)
      = WorkerOutcome.panicked payload
    ∧ joinWorker (workerRun (pre ++ StepOutcome.panicked payload :: rest))
      = Except.error (Error.simulationPanic payload)
    ∧ (runModel (Except.ok ()) (fun _ => true)
        (workerRun (pre ++ StepOutcome.panicked payload :: rest))).result
      = Except.error (Error.simulationPanic payload) := by
  have h1 : workerRun (pre ++ StepOutcome.panicked payload :: rest)
      = WorkerOutcome.panicked payload := by
    rw [workerRun_ok_ticks pre _ hpre]; rfl
  have hw : waitLoop (fun _ => true) 0 waitFuel = WaitOutcome.joined := rfl
  refine ⟨h1, ?_, ?_⟩
  · rw [h1]; rfl
  · rw [h1]
    simp [runModel, hw, joinWorker]

/-- C6 witness: one successful tick, then a panic with payload `"boom"` —
`run` returns `SimulationPanic "boom"`. -/
theorem run_simulation_panic_witness :
    workerRun ([StepOutcome.ok] ++ StepOutcome.panicked "boom"
        :: [StepOutcome.ok])
      = WorkerOutcome.panicked "boom"
    ∧ joinWorker (workerRun ([StepOutcome.ok]
        ++ StepOutcome.panicked "boom" :: [StepOutcome.ok]))
      = Except.error (Error.simulationPanic "boom")
    ∧ (runModel (Except.ok ()) (fun _ => true)
        (workerRun ([StepOutcome.ok] ++ StepOutcome.panicked "boom"
          :: [StepOutcome.ok]))).result
      = Except.error (Error.simulationPanic "boom") :=
  run_simulation_panic [StepOutcome.ok] [StepOutcome.ok] "boom"
    (by decide)

/-- C7: in every worker tick the sleep equals the target period minus the
time spent in this tick when that difference is positive, and zero
otherwise — no negative sleep, no catch-up; at the 30 Hz period
`1000 / 30 = 33` ms a 10 ms tick sleeps 23 ms and a 40 ms tick sleeps
0 ms. -/
theorem run_tick_sleep (period duration : Nat) :
    (duration < period → tickSleep period duration = period - duration)
    ∧ (period ≤ duration → tickSleep period duration = 0)
    ∧ tickSleep (1000 / 30) 10 = 23
    ∧ tickSleep (1000 / 30) 40 = 0 := by
  refine ⟨?_, ?_, by decide, by decide⟩
  · intro h; simp [tickSleep, h]
  · intro h; simp [tickSleep, Nat.not_lt.mpr h]

/-- C7 witness: a 10 ms tick at a 33 ms period sleeps `33 - 10 = 23`
ms. -/
theorem run_tick_sleep_witness : tickSleep 33 10 = 33 - 10 :=
  (run_tick_sleep 33 10).1 (by decide)

/-- C10: the tick period is `Duration::from_millis(1000 / FREQUENCY_IN_HZ)`
with integer division — for `FREQUENCY_IN_HZ = 0` the division panics
(modelled as `none`), at 30 Hz the period truncates to exactly 33 ms,
and for every frequency above 1000 Hz the period is 0 ms, where the
tick pacing never sleeps. -/
theorem run_frequency_division (freqInHz : Nat) :
    periodMillis 0 = none
    ∧ periodMillis 30 = some 33
    ∧ (1000 < freqInHz →
        periodMillis freqInHz = some 0 ∧ ∀ d, tickSleep 0 d = 0) := by
  refine ⟨by decide, by decide, ?_⟩
  intro h
  constructor
  · have hne : freqInHz ≠ 0 := by omega
    simp [periodMillis, hne, Nat.div_eq_of_lt h]
  · intro d; simp [tickSleep]

/-- C10 witness: at 2000 Hz the period truncates to 0 ms. -/
theorem run_frequency_division_witness : periodMillis 2000 = some 0 :=
  ((run_frequency_division 2000).2.2 (by decide)).1

end MultiAgentProof
